import Mathlib

/-!
Verification of the repo_mind orchestration core against its specification.

The definitions below are a shallow embedding of the Python sources:
  * `src/services/orchestrator.py`   (plan authorization gate / step executor)
  * `src/services/tool_executor.py`  (tool registry, background scan jobs)
  * `src/services/gemini_service.py` (marathon agent loop)

Python dicts that are serialized to JSON are modelled by the `Json` type;
`json.dumps(·, sort_keys=True)` and `json.dump(·, f, indent=2)` are modelled
byte-for-byte (for the ASCII data the orchestrator produces) by `dumpsSorted`
and `dumpsIndent`.  External collaborators (ingest service, Gemini model,
CodeQL service, HMAC-SHA256) are abstracted as function parameters, since the
repository treats them as out-of-scope collaborators.
-/

/-- JSON values, modelling the Python dict/list/str/int/bool/None data that the
orchestrator serializes.  Objects keep insertion order, as Python dicts do.
Numbers are restricted to the non-negative integers that actually occur in
plans (step indices, counts, limits). -/
inductive Json where
  | null : Json
  | bool (b : Bool) : Json
  | num (n : Nat) : Json
  | str (s : String) : Json
  | arr (xs : List Json) : Json
  | obj (kvs : List (String × Json)) : Json
deriving Repr

/-- Four lowercase hex digits of a code point, as Python's `\uXXXX` escapes use. -/
def hex4 (n : Nat) : String :=
  let d := fun (k : Nat) => (Nat.digitChar ((n / 16 ^ k) % 16)).toString
  d 3 ++ d 2 ++ d 1 ++ d 0

/-- Escape one character the way Python's `json.dumps` (default `ensure_ascii=True`)
does: `"` and `\` get a backslash, common control characters get short escapes,
other control characters and all non-ASCII characters become `\uXXXX`
(astral-plane characters become surrogate pairs). -/
def escapeChar (c : Char) : String :=
  if c = '"' then "\\\""
  else if c = '\\' then "\\\\"
  else if c = '\n' then "\\n"
  else if c = '\t' then "\\t"
  else if c = '\r' then "\\r"
  else if c.toNat = 8 then "\\b"
  else if c.toNat = 12 then "\\f"
  else if c.toNat < 32 then "\\u" ++ hex4 c.toNat
  else if c.toNat < 127 then c.toString
  else if c.toNat < 65536 then "\\u" ++ hex4 c.toNat
  else
    let v := c.toNat - 65536
    "\\u" ++ hex4 (55296 + v / 1024) ++ "\\u" ++ hex4 (56320 + v % 1024)

/-- Escape a whole string for a JSON string literal, as `json.dumps` does. -/
def escapeString (s : String) : String :=
  String.join (s.data.map escapeChar)

mutual

/-- Python `json.dumps(value)` with the default separators `", "` and `": "`
and insertion-order keys (`sort_keys=False`). -/
def dumps : Json → String
  | .null => "null"
  | .bool b => if b then "true" else "false"
  | .num n => toString n
  | .str s => "\"" ++ escapeString s ++ "\""
  | .arr xs => "[" ++ dumpsList xs ++ "]"
  | .obj kvs => "\x7b" ++ dumpsPairs kvs ++ "\x7d"

/-- Array elements joined with the default item separator `", "`. -/
def dumpsList : List Json → String
  | [] => ""
  | [x] => dumps x
  | x :: y :: rest => dumps x ++ ", " ++ dumpsList (y :: rest)

/-- Object entries `"key": value` joined with the default item separator `", "`. -/
def dumpsPairs : List (String × Json) → String
  | [] => ""
  | [(k, v)] => "\"" ++ escapeString k ++ "\": " ++ dumps v
  | (k, v) :: p :: rest =>
      "\"" ++ escapeString k ++ "\": " ++ dumps v ++ ", " ++ dumpsPairs (p :: rest)

end

/-- Lexicographic code-point comparison of key character lists, exactly the
order Python uses to compare `str` keys under `sort_keys=True`. -/
def keyListLe : List Char → List Char → Bool
  | [], _ => true
  | _ :: _, [] => false
  | a :: as, b :: bs =>
      if a.toNat < b.toNat then true
      else if b.toNat < a.toNat then false
      else keyListLe as bs

/-- Lexicographic code-point comparison of two keys. -/
def keyStrLe (a b : String) : Bool := keyListLe a.data b.data

/-- Insert an entry in front of the first entry with a key not below its
own. -/
def insertPair (p : String × Json) : List (String × Json) → List (String × Json)
  | [] => [p]
  | q :: qs => if keyStrLe p.1 q.1 then p :: q :: qs else q :: insertPair p qs

/-- Sort object entries by key (insertion sort), modelling Python's
`sorted(dict.items())` under `sort_keys=True` (dict keys are distinct, so
stability is irrelevant). -/
def sortPairs : List (String × Json) → List (String × Json)
  | [] => []
  | p :: ps => insertPair p (sortPairs ps)

mutual

/-- Recursively sort every object's entries by key, modelling the effect of
`sort_keys=True` on nested Python dicts (whose keys are always distinct). -/
def sortJson : Json → Json
  | .null => .null
  | .bool b => .bool b
  | .num n => .num n
  | .str s => .str s
  | .arr xs => .arr (sortJsonList xs)
  | .obj kvs => .obj (sortPairs (sortJsonPairs kvs))

/-- Map `sortJson` over array elements. -/
def sortJsonList : List Json → List Json
  | [] => []
  | x :: xs => sortJson x :: sortJsonList xs

/-- Map `sortJson` over object values (keys untouched). -/
def sortJsonPairs : List (String × Json) → List (String × Json)
  | [] => []
  | (k, v) :: kvs => (k, sortJson v) :: sortJsonPairs kvs

end

/-- Python `json.dumps(value, sort_keys=True)`: default separators (so a space
after every `:` and `,`), keys sorted at every nesting level. -/
def dumpsSorted (j : Json) : String :=
  dumps (sortJson j)

/-- The `indent`-mode newline-plus-indentation prefix: `2 * level` spaces. -/
def ind (level : Nat) : String :=
  String.mk (List.replicate (2 * level) ' ')

mutual

/-- Python `json.dump(value, f, indent=2)`: pretty-printed with two-space
indentation, item separator `","` + newline, key separator `": "`, and
insertion-order keys (`sort_keys` defaults to `False`). -/
def dumpsIndent (level : Nat) : Json → String
  | .null => "null"
  | .bool b => if b then "true" else "false"
  | .num n => toString n
  | .str s => "\"" ++ escapeString s ++ "\""
  | .arr [] => "[]"
  | .arr (x :: xs) =>
      "[\n" ++ ind (level + 1) ++ dumpsIndentList (level + 1) (x :: xs)
        ++ "\n" ++ ind level ++ "]"
  | .obj [] => "\x7b\x7d"
  | .obj (p :: ps) =>
      "\x7b\n" ++ ind (level + 1) ++ dumpsIndentPairs (level + 1) (p :: ps)
        ++ "\n" ++ ind level ++ "\x7d"

/-- Indented array elements, separated by `",\n"` plus indentation. -/
def dumpsIndentList (level : Nat) : List Json → String
  | [] => ""
  | [x] => dumpsIndent level x
  | x :: y :: rest =>
      dumpsIndent level x ++ ",\n" ++ ind level ++ dumpsIndentList level (y :: rest)

/-- Indented object entries, separated by `",\n"` plus indentation. -/
def dumpsIndentPairs (level : Nat) : List (String × Json) → String
  | [] => ""
  | [(k, v)] => "\"" ++ escapeString k ++ "\": " ++ dumpsIndent level v
  | (k, v) :: p :: rest =>
      "\"" ++ escapeString k ++ "\": " ++ dumpsIndent level v ++ ",\n"
        ++ ind level ++ dumpsIndentPairs level (p :: rest)

end

/-! ## Plan data model (`src/services/orchestrator.py`)

Plans are Python dicts; we model them as structures whose `planToJson`
reproduces the dict's insertion order exactly as `create_analysis_plan`
builds it. -/

/-- The `OrchestratorRequest` pydantic model (`src/models/requests.py`):
`repo_id`, `analysis_type` (an open string; "security", "performance",
"architecture", "full", "deep", ... ), optional `custom_instructions`. -/
structure OrchestratorRequest where
  repo_id : String
  analysis_type : String
  custom_instructions : Option String
deriving Repr

/-- Python truthiness of `request.custom_instructions` (an `Optional[str]`):
`None` and the empty string are falsy. -/
def truthyStr : Option String → Bool
  | none => false
  | some s => s != ""

/-- Python `opt or default` on an `Optional[str]`: the default replaces `None`
and the empty string. -/
def orDefault (o : Option String) (d : String) : String :=
  match o with
  | none => d
  | some s => if s = "" then d else s

/-- One entry of a plan's `actions` list: a dict with keys
`step`, `action`, `description`, `params`, `status` in that insertion order. -/
structure PlanAction where
  step : Nat
  action : String
  description : String
  params : List (String × Json)
  status : String
deriving Repr

/-- Serialize an action dict in its insertion order. -/
def actionToJson (a : PlanAction) : Json :=
  .obj [("step", .num a.step),
        ("action", .str a.action),
        ("description", .str a.description),
        ("params", .obj a.params),
        ("status", .str a.status)]

/-- JSON of an `Optional[str]` field (`None` becomes JSON `null`). -/
def optStrJson : Option String → Json
  | none => .null
  | some s => .str s

/-- The plan dict built by `create_analysis_plan` and mutated by
`execute_plan`; field order matches the dict's insertion order. -/
structure Plan where
  plan_id : String
  created_at : String
  status : String
  request : OrchestratorRequest
  actions : List PlanAction
  executed_at : Option String
  results : Option Json
  approval_required : Bool
  approval_instructions : String
deriving Repr

/-- Serialize the `request` sub-dict in its insertion order. -/
def requestToJson (r : OrchestratorRequest) : Json :=
  .obj [("repo_id", .str r.repo_id),
        ("analysis_type", .str r.analysis_type),
        ("custom_instructions", optStrJson r.custom_instructions)]

/-- Serialize the whole plan dict in its insertion order, exactly as the dict
is laid out in `create_analysis_plan` (and hence in the persisted file and in
any plan re-loaded from it). -/
def planToJson (p : Plan) : Json :=
  .obj [("plan_id", .str p.plan_id),
        ("created_at", .str p.created_at),
        ("status", .str p.status),
        ("request", requestToJson p.request),
        ("actions", .arr (p.actions.map actionToJson)),
        ("executed_at", optStrJson p.executed_at),
        ("results", match p.results with | none => .null | some r => r),
        ("approval_required", .bool p.approval_required),
        ("approval_instructions", .str p.approval_instructions)]

/-- `_generate_actions` (`orchestrator.py:118-203`): compile a request into the
ordered action list.  Always `ingest_repository` then `index_repository`;
`run_codeql` when `analysis_type ∈ {security, full}`; the `gemini_think` /
`gemini_analyze` pair when `analysis_type = "deep"`; a trailing
`semantic_search` when custom instructions are truthy and the analysis is not
`deep`. -/
def generateActions (request : OrchestratorRequest) : List PlanAction :=
  let actions : List PlanAction :=
    [{ step := 1, action := "ingest_repository",
       description := "Clone and process repository",
       params := [("repo_id", .str request.repo_id)], status := "pending" },
     { step := 2, action := "index_repository",
       description := "Index repository for semantic search",
       params := [("repo_id", .str request.repo_id)], status := "pending" }]
  let actions :=
    if request.analysis_type == "security" || request.analysis_type == "full" then
      actions ++
        [{ step := actions.length + 1, action := "run_codeql",
           description := "Run CodeQL static analysis",
           params := [("repo_id", .str request.repo_id),
                      ("language", .str "python"),
                      ("query_suite", .str "security-extended")],
           status := "pending" }]
    else actions
  let actions :=
    if request.analysis_type == "deep" then
      let actions := actions ++
        [{ step := actions.length + 1, action := "gemini_think",
           description := "Generate investigation plan (Thinking Mode)",
           params := [("repo_id", .str request.repo_id),
                      ("query", .str (orDefault request.custom_instructions
                        "Analyze this repository for security vulnerabilities and architectural flaws."))],
           status := "pending" }]
      actions ++
        [{ step := actions.length + 1, action := "gemini_analyze",
           description := "Analyze code evidence",
           params := [("repo_id", .str request.repo_id),
                      ("query", .str (orDefault request.custom_instructions
                        "Analyze this repository."))],
           status := "pending" }]
    else actions
  let actions :=
    if truthyStr request.custom_instructions && request.analysis_type != "deep" then
      actions ++
        [{ step := actions.length + 1, action := "semantic_search",
           description := "Search for: " ++
             orDefault request.custom_instructions "",
           params := [("repo_id", .str request.repo_id),
                      ("query", .str (orDefault request.custom_instructions "")),
                      ("limit", .num 10)],
           status := "pending" }]
    else actions
  actions

/-- `create_analysis_plan` (`orchestrator.py:40-72`), with the two
environment-supplied values (the fresh `uuid`-based plan id and the
`datetime.utcnow()` timestamp) passed in as arguments. -/
def createAnalysisPlan (planId createdAt : String)
    (request : OrchestratorRequest) : Plan :=
  { plan_id := planId
    created_at := createdAt
    status := "pending_approval"
    request := request
    actions := generateActions request
    executed_at := none
    results := none
    approval_required := true
    approval_instructions :=
      "Call POST /api/orchestrate/execute with plan_id and HMAC signature" }

/-! ## Sequential step executor (`orchestrator.py:205-354`) -/

/-- Errors raised by `ingest_service.get_repo_content`: the documented
`FileNotFoundError` (caught by the think/analyze handlers) versus any other
exception (which propagates and fails the action with its message). -/
inductive RepoErr where
  | fileNotFound : RepoErr
  | other (msg : String) : RepoErr
deriving Repr

/-- The external collaborators the step executor calls
(`IngestService`, `GeminiService`), abstracted as functions.  Values drawn
from an action's `params` dict are passed as the `Json` values they are, as
Python does.  A `.error` result models the collaborator raising, with the
exception's `str(e)` message. -/
structure Collaborators where
  getRepoContent : Json → Except RepoErr String
  generatePlan : Json → String → Except String Json
  performAnalysis : Json → Json → List (String × String) → Except String Json

/-- The execution-scoped `session_context` dict. -/
def ExecCtx := List (String × Json)

/-- Python dict assignment `ctx[k] = v`: replace the existing entry in place or
append a fresh key at the end. -/
def ctxSet (ctx : ExecCtx) (k : String) (v : Json) : ExecCtx :=
  match ctx with
  | [] => [(k, v)]
  | (k', v') :: rest =>
      if k' == k then (k, v) :: rest else (k', v') :: ctxSet rest k v

/-- Python dict read `ctx.get(k)`. -/
def ctxGet (ctx : ExecCtx) (k : String) : Option Json :=
  match ctx with
  | [] => none
  | (k', v) :: rest => if k' == k then some v else ctxGet rest k

/-- Python subscript `params[k]`: a missing key raises `KeyError(k)`, whose
`str` is the repr `'k'`. -/
def param (ps : List (String × Json)) (k : String) : Except String Json :=
  match ps.lookup k with
  | some v => .ok v
  | none => .error ("'" ++ k ++ "'")

/-- `_execute_single_action` (`orchestrator.py:261-354`): dispatch one action
by its `action` string.  Returns the handler's result dict and the updated
`session_context`, or the raised exception's message. -/
def executeSingleAction (collab : Collaborators) (action : PlanAction)
    (ctx : ExecCtx) : Except String (Json × ExecCtx) :=
  let params := action.params
  if action.action == "ingest_repository" then
    -- `self.ingest_service.get_repo_path(params["repo_id"])`: `IngestService`
    -- (`src/services/ingest_service.py`) defines no `get_repo_path` method
    -- (it exists only as a MagicMock in `tests/test_orchestrator_gemini.py`),
    -- so the attribute lookup raises AttributeError before the argument is
    -- even evaluated, and the action always fails with `str(e)`:
    Except.error "'IngestService' object has no attribute 'get_repo_path'"
  else if action.action == "index_repository" then
    pure (.obj [("status", .str "completed"),
                ("message", .str "Index verified")], ctx)
  else if action.action == "run_codeql" then
    pure (.obj [("status", .str "completed"),
                ("message", .str "CodeQL analysis skipped (demo)")], ctx)
  else if action.action == "gemini_think" then do
    let query ← param params "query"
    let repoId ← param params "repo_id"
    let contextStr ←
      match collab.getRepoContent repoId with
      | .ok content =>
          pure (if content == "" then "Repository content not available"
                else content.take 5000)
      | .error .fileNotFound => pure "Repository not ingested yet"
      | .error (.other e) => Except.error e
    let plan ← collab.generatePlan query contextStr
    pure (.obj [("status", .str "completed"), ("plan", plan)],
          ctxSet ctx "analysis_plan" plan)
  else if action.action == "gemini_analyze" then do
    match ctxGet ctx "analysis_plan" with
    | none =>
        Except.error "No analysis plan found in context. gemini_think must run first."
    | some plan => do
        let repoId ← param params "repo_id"
        let content ←
          match collab.getRepoContent repoId with
          | .ok c => pure c
          | .error .fileNotFound => pure "Repository not found"
          | .error (.other e) => Except.error e
        let query ← param params "query"
        let result ← collab.performAnalysis query plan [("repo.md", content)]
        pure (.obj [("status", .str "completed"), ("analysis", result)], ctx)
  else if action.action == "semantic_search" then
    pure (.obj [("status", .str "completed"), ("results", .arr [])], ctx)
  else
    Except.error ("Unknown action type: " ++ action.action)

/-- The aggregate `results` dict built by `_execute_actions`
(`orchestrator.py:215-223`); `summary` and `session_context` are the constants
the source stores there (the local `session_context` variable is a distinct
dict, so the stored one stays empty). -/
structure ExecResults where
  repo_id : String
  analysis_type : String
  action_results : List Json
  total_actions : Nat
  completed_actions : Nat
deriving Repr

/-- Serialize the aggregate results dict in its insertion order. -/
def execResultsToJson (r : ExecResults) : Json :=
  .obj [("repo_id", .str r.repo_id),
        ("analysis_type", .str r.analysis_type),
        ("summary", .str "Orchestrated analysis completed"),
        ("action_results", .arr r.action_results),
        ("total_actions", .num r.total_actions),
        ("completed_actions", .num r.completed_actions),
        ("session_context", .obj [])]

/-- The per-action entry appended to `results["action_results"]` on success. -/
def okEntry (a : PlanAction) (payload : Json) : Json :=
  .obj [("step", .num a.step), ("action", .str a.action),
        ("status", .str "completed"), ("result", payload)]

/-- The per-action entry appended to `results["action_results"]` on failure. -/
def errEntry (a : PlanAction) (e : String) : Json :=
  .obj [("step", .num a.step), ("action", .str a.action),
        ("status", .str "failed"), ("error", .str e)]

/-- The loop body of `_execute_actions` (`orchestrator.py:227-255`): run the
actions in order, mark each one completed/failed in place, append its entry to
the aggregate results, and break out of the loop when a failed action is
`gemini_think` or `gemini_analyze` (leaving the remaining actions untouched,
still `pending`). Returns the aggregate results and the mutated action list. -/
def executeActionsLoop (collab : Collaborators) :
    List PlanAction → ExecCtx → ExecResults → ExecResults × List PlanAction
  | [], _, res => (res, [])
  | a :: rest, ctx, res =>
    match executeSingleAction collab a ctx with
    | .ok (payload, ctx') =>
        let a' := { a with status := "completed" }
        let res' := { res with
          action_results := res.action_results ++ [okEntry a payload],
          completed_actions := res.completed_actions + 1 }
        let out := executeActionsLoop collab rest ctx' res'
        (out.1, a' :: out.2)
    | .error e =>
        let a' := { a with status := "failed" }
        let res' := { res with
          action_results := res.action_results ++ [errEntry a e] }
        if a.action == "gemini_think" || a.action == "gemini_analyze" then
          (res', a' :: rest)
        else
          let out := executeActionsLoop collab rest ctx res'
          (out.1, a' :: out.2)

/-- `_execute_actions` (`orchestrator.py:205-257`): fresh empty
`session_context`, aggregate counters initialised from the request and the
action count. -/
def executeActions (collab : Collaborators) (actions : List PlanAction)
    (request : OrchestratorRequest) : ExecResults × List PlanAction :=
  executeActionsLoop collab actions []
    { repo_id := request.repo_id
      analysis_type := request.analysis_type
      action_results := []
      total_actions := actions.length
      completed_actions := 0 }

/-! ## Plan authorization gate (`orchestrator.py:74-116, 356-423`) -/

/-- The persisted plan store: one durable record per `plan_id`
(`workspace/plans/<plan_id>.json`). -/
def PlanStore := List (String × Plan)

/-- `_load_plan`: read the record for `plan_id`, or `None` when the file does
not exist. -/
def loadPlan (store : PlanStore) (planId : String) : Option Plan :=
  match store with
  | [] => none
  | (k, p) :: rest => if k == planId then some p else loadPlan rest planId

/-- `_persist_plan` (`orchestrator.py:398-407`): (over)write the record keyed
by the plan's own `plan_id`.  The bytes written are
`dumpsIndent 0 (planToJson plan)` — `json.dump(plan, f, indent=2)`. -/
def persistPlan (store : PlanStore) (plan : Plan) : PlanStore :=
  match store with
  | [] => [(plan.plan_id, plan)]
  | (k, p) :: rest =>
      if k == plan.plan_id then (k, plan) :: rest
      else (k, p) :: persistPlan rest plan

/-- The exact byte string `_persist_plan` writes to disk for a plan. -/
def persistedBytes (plan : Plan) : String :=
  dumpsIndent 0 (planToJson plan)

/-- `_verify_signature` (`orchestrator.py:356-377`): serialize the plan with
`json.dumps(plan, sort_keys=True)`, append `":" + approved_by`, apply the
keyed MAC (HMAC-SHA256 with the server secret, abstracted as `mac`), and
compare hex digests with `hmac.compare_digest` (constant-time, but
extensionally string equality). -/
def verifySignature (mac : String → String → String) (secret : String)
    (plan : Plan) (approved_by signature : String) : Bool :=
  let plan_json := dumpsSorted (planToJson plan)
  let message := plan_json ++ ":" ++ approved_by
  let expected := mac secret message
  signature == expected

/-- `generate_signature` (`orchestrator.py:379-396`): the signature a trusted
approver computes; same serialization and MAC as `_verify_signature`. -/
def generateSignature (mac : String → String → String) (secret : String)
    (plan : Plan) (approved_by : String) : String :=
  let plan_json := dumpsSorted (planToJson plan)
  let message := plan_json ++ ":" ++ approved_by
  mac secret message

/-- The two exceptions `execute_plan` raises: `FileNotFoundError` for a
missing plan and `PermissionError` for a bad signature. -/
inductive OrchError where
  | notFound (msg : String) : OrchError
  | permissionDenied (msg : String) : OrchError
deriving Repr

/-- `execute_plan` (`orchestrator.py:74-116`): load the persisted plan (raise
NotFound if absent), verify the approval signature over the loaded plan
(raise PermissionDenied on mismatch), then — only after the signature check —
short-circuit if the plan is already `completed`; otherwise run the actions,
mutate the plan (`status`, `executed_at`, `results`, and the in-place mutated
action statuses) and persist it.  `now` models `datetime.utcnow()`. -/
def executePlan (mac : String → String → String) (secret : String)
    (collab : Collaborators) (now : String) (store : PlanStore)
    (planId approvedBy approvalSignature : String) :
    Except OrchError (Plan × PlanStore) :=
  match loadPlan store planId with
  | none => .error (.notFound ("Plan " ++ planId ++ " not found"))
  | some plan =>
    if !verifySignature mac secret plan approvedBy approvalSignature then
      .error (.permissionDenied "Invalid approval signature")
    else if plan.status == "completed" then
      .ok (plan, store)
    else
      let out := executeActions collab plan.actions plan.request
      let plan' := { plan with
        status := "completed"
        executed_at := some now
        results := some (execResultsToJson out.1)
        actions := out.2 }
      .ok (plan', persistPlan store plan')

/-! ## Tool registry boundary (`tool_executor.py:399-422`) -/

/-- `execute_tool` (`tool_executor.py:399-410`), with the `TOOL_EXECUTORS`
table abstracted as `registry` and each tool's Python callable modelled as a
function that either returns a result dict or raises (`.error` carries the
exception's `str(e)`; this includes a `TypeError` from binding malformed
keyword arguments produced by the model). -/
def executeTool (registry : String → Option (Json → Except String Json))
    (toolName : String) (toolArgs : Json) : Json :=
  match registry toolName with
  | none => .obj [("error", .str ("Tool " ++ toolName ++ " not found"))]
  | some f =>
    match f toolArgs with
    | .ok r => r
    | .error e => .obj [("error", .str e)]

/-! ## Marathon agent loop (`gemini_service.py:600-701`) -/

/-- One element of `interaction.outputs`: the model's structured output parts. -/
inductive OutPart where
  | thought (summary : String) : OutPart
  | functionCall (nm : String) (arguments : Json) (id : String) : OutPart
  | text (t : String) : OutPart
deriving Repr

/-- Whether a part is a `function_call` part. -/
def OutPart.isFunctionCall : OutPart → Bool
  | .functionCall _ _ _ => true
  | _ => false

/-- Whether a part is a `text` part. -/
def OutPart.isText : OutPart → Bool
  | .text _ => true
  | _ => false

/-- The object returned by `client.interactions.create`: its id (used as the
continuation handle) and its output parts. -/
structure Interaction where
  id : String
  outputs : List OutPart
deriving Repr

/-- The input of one model turn: the user goal on turn 1, or the previous
turn's executed tool result (`{type: function_result, name, call_id, result}`)
afterwards. -/
inductive AgentInput where
  | goal (g : String) : AgentInput
  | functionResult (nm : String) (callId : String) (result : Json) : AgentInput
deriving Repr

/-- The model collaborator: `client.interactions.create`, keyed by the
iteration number, the continuation handle (`previous_interaction_id`) and the
input.  (`tools`, `system_instruction` and `generation_config` are fixed by
the source and folded into the oracle.)  `.error` models the call raising. -/
def ModelOracle := Nat → Option String → AgentInput → Except String Interaction

/-- One recorded entry of `tool_calls_made`. -/
structure ToolCallEntry where
  iteration : Nat
  function : String
  result : Json
deriving Repr

/-- Result of the agent run, mirroring the four return dicts of
`marathon_agent`: `completed` (in-loop text return carries the interaction id,
the after-loop return does not), `max_iterations`, and `error` (the outer
`except`). -/
inductive AgentOutcome where
  | completed (response : String) (iterations : Nat)
      (tool_calls : List ToolCallEntry) (interactionId : Option String) : AgentOutcome
  | maxIterations (iterations : Nat) (tool_calls : List ToolCallEntry) : AgentOutcome
  | error (msg : String) (iterations : Nat)
      (tool_calls : List ToolCallEntry) : AgentOutcome
deriving Repr

/-- Result of scanning one turn's `interaction.outputs` in order
(`gemini_service.py:654-684`): an early `return` on a text part seen before
any function call, or the end of the `for` loop with the function calls
executed (`lastCall` is the final `last_function_*` triple when at least one
function call occurred). -/
inductive TurnScan where
  | earlyText (t : String) : TurnScan
  | ended (calls : List ToolCallEntry)
      (lastCall : Option (String × String × Json)) : TurnScan
deriving Repr

/-- The `for output in interaction.outputs` loop: thoughts are logged only;
each `function_call` part is executed via `execute_tool` and recorded; a
`text` part returns early unless a function call was already seen in this same
turn (in which case it is skipped). -/
def scanParts (execTool : String → Json → Json) (iter : Nat) :
    List OutPart → Bool → List ToolCallEntry → Option (String × String × Json) →
    TurnScan
  | [], _, acc, last => .ended acc last
  | p :: rest, hasFC, acc, last =>
    match p with
    | .thought _ => scanParts execTool iter rest hasFC acc last
    | .functionCall nm args callId =>
        let result := execTool nm args
        scanParts execTool iter rest true
          (acc ++ [{ iteration := iter, function := nm, result := result }])
          (some (nm, callId, result))
    | .text t =>
        if hasFC then scanParts execTool iter rest hasFC acc last
        else .earlyText t

/-- The `while iteration < max_iterations` loop of `marathon_agent`
(`gemini_service.py:624-698`), structured on the remaining iteration budget
`fuel = max_iterations - iteration`.  A model-call exception is caught by the
outer `except` and becomes the `error` outcome; empty `interaction.outputs`
breaks out to the `max_iterations` return; a turn that executed function
calls feeds the last one back as the next turn's input. -/
def agentLoop (oracle : ModelOracle) (execTool : String → Json → Json)
    (goal : String) :
    Nat → Nat → Option String → Option (String × String × Json) →
    List ToolCallEntry → AgentOutcome
  | 0, iteration, _, _, calls => .maxIterations iteration calls
  | fuel + 1, iteration, iid, last, calls =>
    let iter := iteration + 1
    match
      (if iter == 1 then some (AgentInput.goal goal)
       else match last with
            | some (nm, cid, res) => some (.functionResult nm cid res)
            | none => none) with
    | none =>
        -- Python would hit an unbound `last_function_name` (NameError), which
        -- the outer `except` converts to the error outcome; unreachable from
        -- `marathonAgent` since the loop only continues after a function call.
        .error "name 'last_function_name' is not defined" iter calls
    | some input =>
      match oracle iter iid input with
      | .error e => .error e iter calls
      | .ok interaction =>
        let iid' := some interaction.id
        if interaction.outputs.isEmpty then
          .maxIterations iter calls
        else
          match scanParts execTool iter interaction.outputs false [] none with
          | .earlyText t => .completed t iter calls iid'
          | .ended newCalls lastCall =>
            match lastCall with
            | none =>
                let textOutputs := interaction.outputs.filter OutPart.isText
                let response :=
                  match textOutputs with
                  | .text t :: _ => t
                  | _ => "No response"
                .completed response iter (calls ++ newCalls) none
            | some lc =>
                agentLoop oracle execTool goal fuel iter iid' (some lc)
                  (calls ++ newCalls)

/-- `marathon_agent` (`gemini_service.py:600-698`): run the agent loop with an
iteration budget of `maxIterations`, starting with no continuation handle and
an empty tool-call log. -/
def marathonAgent (oracle : ModelOracle) (execTool : String → Json → Json)
    (userGoal : String) (maxIterations : Nat) : AgentOutcome :=
  agentLoop oracle execTool userGoal maxIterations 0 none none []

/-! ## Background scan jobs (`tool_executor.py:255-395`) -/

/-- One entry of the `ASYNC_JOBS` table.  `submit` stores
`status/repo_url/submitted_at`; the worker later adds `result` or `error`
(absent keys are `none`).  `submitted_at` (`time.time()`) is an opaque tick. -/
structure ScanJob where
  status : String
  repo_url : String
  submitted_at : Nat
  result : Option Json
  error : Option String
deriving Repr

/-- The in-memory `ASYNC_JOBS` store. -/
def JobStore := List (String × ScanJob)

/-- Lookup `ASYNC_JOBS.get(job_id)`. -/
def jobGet (jobs : JobStore) (jobId : String) : Option ScanJob :=
  match jobs with
  | [] => none
  | (k, j) :: rest => if k == jobId then some j else jobGet rest jobId

/-- `check_scan_status` (`tool_executor.py:273-290`): a structured not-found
payload for unknown ids; the stored result for a completed job; a structured
error payload for a failed job; otherwise (queued or running) a lightweight
progress snapshot.  The only way it can raise is the (unreachable) `KeyError`
on a completed job whose `result` key was never stored, modelled by `.error`. -/
def checkScanStatus (jobs : JobStore) (jobId : String) : Except String Json :=
  match jobGet jobs jobId with
  | none => .ok (.obj [("status", .str "error"),
                       ("message", .str "Job ID not found")])
  | some job =>
    if job.status == "completed" then
      match job.result with
      | some r => .ok r
      | none => .error "'result'"
    else if job.status == "failed" then
      .ok (.obj [("status", .str "error"),
                 ("error", match job.error with
                           | some e => .str e
                           | none => .null)])
    else
      .ok (.obj [("status", .str "running"),
                 ("message", .str "Scan is still in progress. Please check again later."),
                 ("job_id", .str jobId)])

/-- A `CodeQLScanResponse` as `run_security_scan` consumes it
(`total_findings`, `findings`, `scan_duration_seconds`; the duration is kept
as an opaque JSON value since floats are out of modelled range). -/
structure ScanResponse where
  total_findings : Nat
  findings : List Json
  scan_duration : Json
deriving Repr

/-- Collaborators of the synchronous path of `run_security_scan`:
`analyze_repository` (total — the Python function catches every exception and
returns an error dict), the GitHub-language field it reports, the ingest
service and the CodeQL service.  `.error` values model the call raising, with
`str(e)`. -/
structure ScanCollab where
  integrationAvailable : Bool
  analyzeRepositoryLanguage : String → Except String (Option String)
  ingestRepoId : String → Except String String
  codeqlAvailable : Bool
  codeqlAnalyze : String → String → Except String ScanResponse

/-- The `lang_map` of `run_security_scan` (`tool_executor.py:338-348`) plus its
`.get(gh_lang, "python")` default. -/
def mapGithubLanguage (ghLang : String) : String :=
  if ghLang == "Python" then "python"
  else if ghLang == "JavaScript" then "javascript"
  else if ghLang == "TypeScript" then "javascript"
  else if ghLang == "Go" then "go"
  else if ghLang == "Java" then "java"
  else if ghLang == "C++" then "cpp"
  else if ghLang == "C#" then "csharp"
  else if ghLang == "Ruby" then "ruby"
  else "python"

/-- The language auto-detection block (`tool_executor.py:331-352`): when the
caller passed no language, ask the metadata API for the repository's language
(`meta.get('language', 'Python')`; a missing or null field defaults to
`"Python"`) and map it; any exception in the block falls back to `"python"`. -/
def detectLanguage (collab : ScanCollab) (repoUrl : String)
    (language : Option String) : String :=
  match language with
  | some l =>
      if l == "" then
        match collab.analyzeRepositoryLanguage repoUrl with
        | .ok ghLang => mapGithubLanguage (ghLang.getD "Python")
        | .error _ => "python"
      else l
  | none =>
      match collab.analyzeRepositoryLanguage repoUrl with
      | .ok ghLang => mapGithubLanguage (ghLang.getD "Python")
      | .error _ => "python"

/-- The synchronous path of `run_security_scan` (`tool_executor.py:320-395`,
`background=False`): every failure path is converted to a `status: error`
dict inside the function's own `try/except`, so the function returns a plain
dict and never raises. -/
def runSecurityScanSync (collab : ScanCollab) (repoUrl : String)
    (language : Option String) : Json :=
  if !collab.integrationAvailable then
    .obj [("status", .str "error"),
          ("error", .str "Deep integration services (Ingest/CodeQL) not found or failed to load.")]
  else
    let lang := detectLanguage collab repoUrl language
    match collab.ingestRepoId repoUrl with
    | .error e => .obj [("status", .str "error"), ("error", .str e)]
    | .ok repoId =>
      if !collab.codeqlAvailable then
        .obj [("status", .str "error"),
              ("message", .str "CodeQL CLI not found on server"),
              ("repo_id", .str repoId)]
      else
        match collab.codeqlAnalyze repoId lang with
        | .error e => .obj [("status", .str "error"), ("error", .str e)]
        | .ok resp =>
            .obj [("status", .str "success"),
                  ("repo_id", .str repoId),
                  ("language", .str lang),
                  ("total_findings", .num resp.total_findings),
                  ("findings", .arr resp.findings),
                  ("scan_duration", resp.scan_duration)]

/-- `_run_scan_async` (`tool_executor.py:262-271`): the worker marks the job
running, invokes the scan tool, and stores a completed job with the tool's
returned dict — or, only if the invocation itself raised (modelled by the
`toolCall` argument, since `runSecurityScanSync` itself is total), a failed
job with the exception message. -/
def runScanWorker (toolCall : Except String Json) (job : ScanJob) : ScanJob :=
  let running := { job with status := "running" }
  match toolCall with
  | .ok result => { running with result := some result, status := "completed" }
  | .error e => { running with status := "failed", error := some e }

/-- The `background=True` path of `run_security_scan`
(`tool_executor.py:297-318`): store a queued job under a fresh id and return
the handle dict immediately (the worker runs independently). -/
def submitScan (jobs : JobStore) (jobId : String) (repoUrl : String)
    (tick : Nat) : JobStore × Json :=
  let job : ScanJob :=
    { status := "queued", repo_url := repoUrl, submitted_at := tick,
      result := none, error := none }
  ((jobId, job) :: jobs,
   .obj [("status", .str "queued"),
         ("job_id", .str jobId),
         ("message", .str "Security scan started in background. Use check_scan_status(job_id) to get results."),
         ("estimated_time", .str "2-5 minutes")])

/-! ## Shared helper lemmas -/

/-- Loading right after persisting yields the persisted plan. -/
theorem loadPlan_persistPlan (store : PlanStore) (p : Plan) :
    loadPlan (persistPlan store p) p.plan_id = some p := by
  induction store with
  | nil => simp [persistPlan, loadPlan]
  | cons hd tl ih =>
      obtain ⟨k, q⟩ := hd
      by_cases h : k == p.plan_id
      · simp [persistPlan, loadPlan, h]
      · simp [persistPlan, loadPlan, h, ih]

/-- A signature computed by `generate_signature` over a plan always passes
`_verify_signature` for the same plan and approver. -/
theorem verify_generate (mac : String → String → String) (secret : String)
    (p : Plan) (approver : String) :
    verifySignature mac secret p approver
      (generateSignature mac secret p approver) = true := by
  simp [verifySignature, generateSignature]

/-- Normal form of `_generate_actions` for a `deep` request: exactly
ingest, index, think, analyze (no `run_codeql`, no `semantic_search`). -/
theorem generateActions_deep (req : OrchestratorRequest)
    (h : req.analysis_type = "deep") :
    generateActions req =
      [{ step := 1, action := "ingest_repository",
         description := "Clone and process repository",
         params := [("repo_id", .str req.repo_id)], status := "pending" },
       { step := 2, action := "index_repository",
         description := "Index repository for semantic search",
         params := [("repo_id", .str req.repo_id)], status := "pending" },
       { step := 3, action := "gemini_think",
         description := "Generate investigation plan (Thinking Mode)",
         params := [("repo_id", .str req.repo_id),
                    ("query", .str (orDefault req.custom_instructions
                      "Analyze this repository for security vulnerabilities and architectural flaws."))],
         status := "pending" },
       { step := 4, action := "gemini_analyze",
         description := "Analyze code evidence",
         params := [("repo_id", .str req.repo_id),
                    ("query", .str (orDefault req.custom_instructions
                      "Analyze this repository."))],
         status := "pending" }] := by
  simp [generateActions, h]

/-! ## C3 — plan compilation -/

/-- C3: plan compilation is deterministic and follows the stated rules: the
action list always begins with `ingest` then `index`; `run_codeql`
(static analysis) is present exactly when the analysis kind is `security` or
`full`; for kind `deep` the compiled list is exactly
`[ingest, index, think, analyze]` — `semantic_search` is suppressed even when
instructions are present; `security` with no instructions compiles to exactly
`[ingest, index, run_codeql]`; for any non-deep kind with instructions
present, a `semantic_search` step whose `query` is the instructions is
appended last. -/
theorem C3_action_compilation (req : OrchestratorRequest) :
    (((generateActions req).map PlanAction.action).take 2 =
      ["ingest_repository", "index_repository"]) ∧
    ("run_codeql" ∈ (generateActions req).map PlanAction.action ↔
      (req.analysis_type = "security" ∨ req.analysis_type = "full")) ∧
    (req.analysis_type = "deep" →
      (generateActions req).map PlanAction.action =
        ["ingest_repository", "index_repository",
         "gemini_think", "gemini_analyze"]) ∧
    (req.analysis_type = "security" → truthyStr req.custom_instructions = false →
      (generateActions req).map PlanAction.action =
        ["ingest_repository", "index_repository", "run_codeql"]) ∧
    (∀ instr, req.custom_instructions = some instr → instr ≠ "" →
      req.analysis_type ≠ "deep" →
      (generateActions req).getLast? = some
        { step := (generateActions req).length, action := "semantic_search",
          description := "Search for: " ++ instr,
          params := [("repo_id", .str req.repo_id), ("query", .str instr),
                     ("limit", .num 10)],
          status := "pending" }) := by
  refine ⟨?_, ?_, ?_, ?_, ?_⟩
  · simp only [generateActions]
    split <;> split <;> split <;> simp
  · simp only [generateActions]
    split <;> split <;> split <;> simp_all
  · intro h
    simp [generateActions, h]
  · intro h h2
    simp [generateActions, h, h2]
  · intro instr h1 h2 h3
    have hc : (instr != "" && req.analysis_type != "deep") = true := by
      simp [h2, h3]
    have hd : (req.analysis_type == "deep") = false := by
      simp [h3]
    simp only [generateActions, h1, truthyStr, orDefault, if_neg h2, hd,
      Bool.false_eq_true, if_false, hc, if_true]
    rw [List.getLast?_concat]
    simp

/-- Witness for C3 at the two requests named by the specification plus a
non-deep request with instructions. -/
theorem C3_action_compilation_witness :
    ((generateActions ⟨"r9", "deep", some "X"⟩).map PlanAction.action =
      ["ingest_repository", "index_repository",
       "gemini_think", "gemini_analyze"]) ∧
    ((generateActions ⟨"r9", "security", none⟩).map PlanAction.action =
      ["ingest_repository", "index_repository", "run_codeql"]) ∧
    ((generateActions ⟨"r9", "standard", some "auth flow"⟩).getLast? = some
      { step := (generateActions ⟨"r9", "standard", some "auth flow"⟩).length
        action := "semantic_search"
        description := "Search for: auth flow"
        params := [("repo_id", .str "r9"), ("query", .str "auth flow"),
                   ("limit", .num 10)]
        status := "pending" }) :=
  ⟨(C3_action_compilation _).2.2.1 rfl,
   (C3_action_compilation _).2.2.2.1 rfl rfl,
   (C3_action_compilation _).2.2.2.2 "auth flow" rfl (by decide) (by decide)⟩

/-! ## C5 — analyze requires a preceding think -/

/-- The `gemini_analyze` handler fails with the exact missing-prerequisite
message whenever `session_context` lacks the `analysis_plan` key. -/
theorem analyze_missing_prereq (collab : Collaborators) (a : PlanAction)
    (ctx : ExecCtx) (ha : a.action = "gemini_analyze")
    (hctx : ctxGet ctx "analysis_plan" = none) :
    executeSingleAction collab a ctx =
      .error "No analysis plan found in context. gemini_think must run first." := by
  simp [executeSingleAction, ha, hctx]

/-- Two equal success entries come from actions with the same `action` kind. -/
theorem okEntry_action_eq {a b : PlanAction} {p q : Json}
    (h : okEntry a p = okEntry b q) : a.action = b.action := by
  simp [okEntry] at h
  tauto

/-- A success entry is never equal to a failure entry. -/
theorem okEntry_ne_errEntry {a b : PlanAction} {p : Json} {e : String} :
    okEntry a p ≠ errEntry b e := by
  simp [okEntry, errEntry]

/-- Only the `gemini_think` handler writes to `session_context`: any other
action that succeeds returns the context unchanged. -/
theorem executeSingleAction_ctx (collab : Collaborators) (a : PlanAction)
    (ctx : ExecCtx) (payload : Json) (ctx' : ExecCtx)
    (hne : a.action ≠ "gemini_think")
    (h : executeSingleAction collab a ctx = .ok (payload, ctx')) :
    ctx' = ctx := by
  unfold executeSingleAction at h
  split_ifs at h with h1 h2 h3 h4 h5 h6
  · simp [pure, Except.pure] at h
    exact h.2.symm
  · simp [pure, Except.pure] at h
    exact h.2.symm
  · exact absurd (by simpa using h4) hne
  · cases hc : ctxGet ctx "analysis_plan" with
    | none => simp [hc] at h
    | some plan =>
        simp only [hc] at h
        cases hp : param a.params "repo_id" with
        | error e => simp [hp, bind, Except.bind] at h
        | ok v =>
          simp only [hp, bind, Except.bind, pure, Except.pure] at h
          cases hg : collab.getRepoContent v with
          | ok c =>
              simp only [hg, bind, Except.bind, pure, Except.pure] at h
              cases hq : param a.params "query" with
              | error e => simp [hq, bind, Except.bind] at h
              | ok q =>
                simp only [hq, bind, Except.bind, pure, Except.pure] at h
                cases hr : collab.performAnalysis q plan [("repo.md", c)]
                all_goals simp [hr, bind, Except.bind, pure, Except.pure] at h
                all_goals exact h.2.symm
          | error re =>
              cases re with
              | fileNotFound =>
                  simp only [hg, bind, Except.bind, pure, Except.pure] at h
                  cases hq : param a.params "query" with
                  | error e => simp [hq, bind, Except.bind] at h
                  | ok q =>
                    simp only [hq, bind, Except.bind, pure, Except.pure] at h
                    cases hr : collab.performAnalysis q plan
                      [("repo.md", "Repository not found")]
                    all_goals simp [hr, bind, Except.bind, pure, Except.pure] at h
                    all_goals exact h.2.symm
              | other e => simp [hg, bind, Except.bind] at h
  · simp [pure, Except.pure] at h
    exact h.2.symm

/-- Loop invariant behind C5: when the remaining actions contain no
`gemini_think` and the context lacks `analysis_plan`, no `gemini_analyze`
success entry is ever recorded and every `gemini_analyze` action in the
returned list is either marked failed or left exactly as it was supplied. -/
theorem executeActionsLoop_no_think (collab : Collaborators)
    (actions : List PlanAction) :
    ∀ (ctx : ExecCtx) (res : ExecResults),
    ctxGet ctx "analysis_plan" = none →
    (∀ a ∈ actions, a.action ≠ "gemini_think") →
    (∀ a' payload, a'.action = "gemini_analyze" →
      okEntry a' payload ∉ res.action_results) →
    (∀ a' payload, a'.action = "gemini_analyze" →
      okEntry a' payload ∉
        (executeActionsLoop collab actions ctx res).1.action_results) ∧
    (∀ a ∈ (executeActionsLoop collab actions ctx res).2,
      a.action = "gemini_analyze" → a.status = "failed" ∨ a ∈ actions) := by
  induction actions with
  | nil =>
      intro ctx res hctx hnothink hres
      exact ⟨fun a' payload ha' => hres a' payload ha',
             by simp [executeActionsLoop]⟩
  | cons a rest ih =>
      intro ctx res hctx hnothink hres
      have hathink : a.action ≠ "gemini_think" := hnothink a (by simp)
      cases hstep : executeSingleAction collab a ctx with
      | ok pc =>
          obtain ⟨payload, ctx2⟩ := pc
          have hana : a.action ≠ "gemini_analyze" := by
            intro hh
            rw [analyze_missing_prereq collab a ctx hh hctx] at hstep
            exact absurd hstep (by simp)
          have hctx2 : ctx2 = ctx :=
            executeSingleAction_ctx collab a ctx payload ctx2 hathink hstep
          have hres' : ∀ a' payload', a'.action = "gemini_analyze" →
              okEntry a' payload' ∉ (res.action_results ++ [okEntry a payload]) := by
            intro a' p' ha'
            simp only [List.mem_append, List.mem_singleton]
            rintro (hmem | heq)
            · exact hres a' p' ha' hmem
            · exact hana (okEntry_action_eq heq ▸ ha')
          have hrec := ih ctx2 { res with
              action_results := res.action_results ++ [okEntry a payload],
              completed_actions := res.completed_actions + 1 }
            (hctx2 ▸ hctx) (fun x hx => hnothink x (by simp [hx]))
            (by intro a' p' ha'; exact hres' a' p' ha')
          refine ⟨?_, ?_⟩
          · intro a' p' ha'
            simp only [executeActionsLoop, hstep]
            exact hrec.1 a' p' ha'
          · intro x hx hxa
            simp only [executeActionsLoop, hstep] at hx
            rcases List.mem_cons.mp hx with hx1 | hx2
            · exfalso
              apply hana
              have hxact : x.action = a.action := by rw [hx1]
              rw [← hxact, hxa]
            · rcases hrec.2 x hx2 hxa with hf | hmem
              · exact Or.inl hf
              · exact Or.inr (by simp [hmem])
      | error e =>
          have hres' : ∀ a' payload', a'.action = "gemini_analyze" →
              okEntry a' payload' ∉ (res.action_results ++ [errEntry a e]) := by
            intro a' p' ha'
            simp only [List.mem_append, List.mem_singleton]
            rintro (hmem | heq)
            · exact hres a' p' ha' hmem
            · exact okEntry_ne_errEntry heq
          by_cases hcrit : (a.action == "gemini_think" || a.action == "gemini_analyze") = true
          · refine ⟨?_, ?_⟩
            · intro a' p' ha'
              simp only [executeActionsLoop, hstep, hcrit, if_true]
              exact hres' a' p' ha'
            · intro x hx hxa
              simp only [executeActionsLoop, hstep, hcrit, if_true] at hx
              rcases List.mem_cons.mp hx with hx1 | hx2
              · subst hx1
                exact Or.inl rfl
              · exact Or.inr (by simp [hx2])
          · have hrec := ih ctx { res with
                action_results := res.action_results ++ [errEntry a e] }
              hctx (fun x hx => hnothink x (by simp [hx]))
              (by intro a' p' ha'; exact hres' a' p' ha')
            refine ⟨?_, ?_⟩
            · intro a' p' ha'
              simp only [executeActionsLoop, hstep, hcrit, if_false]
              exact hrec.1 a' p' ha'
            · intro x hx hxa
              simp only [executeActionsLoop, hstep, hcrit, if_false] at hx
              rcases List.mem_cons.mp hx with hx1 | hx2
              · exfalso
                have hxa2 : a.action = "gemini_analyze" := by
                  have hxact : x.action = a.action := by rw [hx1]
                  rw [← hxact, hxa]
                simp [hxa2] at hcrit
              · rcases hrec.2 x hx2 hxa with hf | hmem
                · exact Or.inl hf
                · exact Or.inr (by simp [hmem])

/-- C5: the `analyze` action fails with the exact "missing prerequisite" error
whenever the investigation-plan value is absent from the execution context,
and in any run whose actions contain no `gemini_think` (so nothing can ever
write that value), no `gemini_analyze` success entry is recorded and no
`gemini_analyze` action ends up marked completed — never a silent empty
analysis. -/
theorem C5_missing_prerequisite (collab : Collaborators)
    (actions : List PlanAction) (req : OrchestratorRequest)
    (a0 : PlanAction) (ctx0 : ExecCtx) :
    (a0.action = "gemini_analyze" → ctxGet ctx0 "analysis_plan" = none →
      executeSingleAction collab a0 ctx0 =
        .error "No analysis plan found in context. gemini_think must run first.") ∧
    ((∀ a ∈ actions, a.action ≠ "gemini_think") →
     (∀ a ∈ actions, a.status = "pending") →
     (∀ a' payload, a'.action = "gemini_analyze" →
        okEntry a' payload ∉ (executeActions collab actions req).1.action_results) ∧
     (∀ a ∈ (executeActions collab actions req).2,
        a.action = "gemini_analyze" → a.status ≠ "completed")) := by
  constructor
  · intro ha hctx
    exact analyze_missing_prereq collab a0 ctx0 ha hctx
  · intro hnothink hpending
    have hloop := executeActionsLoop_no_think collab actions []
      { repo_id := req.repo_id, analysis_type := req.analysis_type,
        action_results := [], total_actions := actions.length,
        completed_actions := 0 }
      rfl hnothink (fun _ _ _ h => by simp at h)
    refine ⟨?_, ?_⟩
    · intro a' p ha'
      simpa only [executeActions] using hloop.1 a' p ha'
    · intro a ha hxa
      rcases hloop.2 a (by simpa only [executeActions] using ha) hxa with hf | hmem
      · rw [hf]
        decide
      · rw [hpending a hmem]
        decide

/-- Ordinary collaborators whose calls all succeed, used by concrete runs. -/
def demoCollab : Collaborators :=
  { getRepoContent := fun _ => .ok "def main: pass"
    generatePlan := fun _ _ => .ok (.str "investigate")
    performAnalysis := fun _ _ _ => .ok (.str "findings") }

/-- A lone `gemini_analyze` action, as scheduled without a preceding think. -/
def w5Analyze : PlanAction :=
  { step := 1, action := "gemini_analyze", description := "Analyze code evidence",
    params := [("repo_id", .str "r1"), ("query", .str "q")], status := "pending" }

/-- Witness for C5: a concrete `gemini_analyze` with an empty context fails
with the exact message, and a run consisting only of that action never marks
it completed. -/
theorem C5_missing_prerequisite_witness :
    executeSingleAction demoCollab w5Analyze [] =
      .error "No analysis plan found in context. gemini_think must run first." ∧
    (∀ a ∈ (executeActions demoCollab [w5Analyze] ⟨"r1", "deep", none⟩).2,
      a.action = "gemini_analyze" → a.status ≠ "completed") :=
  ⟨(C5_missing_prerequisite demoCollab [w5Analyze] ⟨"r1", "deep", none⟩
      w5Analyze []).1 rfl rfl,
   ((C5_missing_prerequisite demoCollab [w5Analyze] ⟨"r1", "deep", none⟩
      w5Analyze []).2
      (by intro a ha; rw [List.mem_singleton] at ha; subst ha; decide)
      (by intro a ha; rw [List.mem_singleton] at ha; subst ha; rfl)).2⟩

/-! ## C6 — total tool-execution boundary -/

/-- C6: the tool-execution boundary is total — `executeTool` returns a plain
result dict for every registry, tool name and argument value (it cannot
raise, by its type): an unregistered name yields the structured
tool-not-found payload, a tool that raises yields the structured
`error: message` payload, and a tool that returns yields its result
verbatim. -/
theorem C6_tool_boundary (registry : String → Option (Json → Except String Json))
    (toolName : String) (toolArgs : Json) :
    (registry toolName = none →
      executeTool registry toolName toolArgs =
        .obj [("error", .str ("Tool " ++ toolName ++ " not found"))]) ∧
    (∀ f msg, registry toolName = some f → f toolArgs = .error msg →
      executeTool registry toolName toolArgs = .obj [("error", .str msg)]) ∧
    (∀ f r, registry toolName = some f → f toolArgs = .ok r →
      executeTool registry toolName toolArgs = r) := by
  refine ⟨?_, ?_, ?_⟩
  · intro h
    simp [executeTool, h]
  · intro f msg hf hr
    simp [executeTool, hf, hr]
  · intro f r hf hr
    simp [executeTool, hf, hr]

/-- A two-tool registry: one tool that always raises and one that returns. -/
def w6Registry : String → Option (Json → Except String Json) :=
  fun nm =>
    if nm == "raising_tool" then
      some (fun _ => .error "unexpected keyword argument")
    else if nm == "search_github_repos" then
      some (fun _ => .ok (.obj [("status", .str "success")]))
    else none

/-- Witness for C6 at a concrete registry: unknown name, raising tool, and
succeeding tool. -/
theorem C6_tool_boundary_witness :
    executeTool w6Registry "no_such_tool" (.obj []) =
      .obj [("error", .str "Tool no_such_tool not found")] ∧
    executeTool w6Registry "raising_tool" (.obj []) =
      .obj [("error", .str "unexpected keyword argument")] ∧
    executeTool w6Registry "search_github_repos" (.obj []) =
      .obj [("status", .str "success")] :=
  ⟨(C6_tool_boundary w6Registry "no_such_tool" (.obj [])).1 rfl,
   (C6_tool_boundary w6Registry "raising_tool" (.obj [])).2.1 _ _ rfl rfl,
   (C6_tool_boundary w6Registry "search_github_repos" (.obj [])).2.2 _ _ rfl rfl⟩

/-! ## C9 — job polling -/

/-- C9: polling an id absent from the job table (ids enter the table only via
submission, and a submission touches no other key) yields the structured
not-found payload, while polling a queued or running job yields the
lightweight still-in-progress snapshot, whose `status` field is `running` —
not an error payload. -/
theorem C9_job_polling (jobs : JobStore) (jobId : String) (job : ScanJob) :
    (jobGet jobs jobId = none →
      checkScanStatus jobs jobId =
        .ok (.obj [("status", .str "error"),
                   ("message", .str "Job ID not found")])) ∧
    (jobGet jobs jobId = some job →
      (job.status = "queued" ∨ job.status = "running") →
      checkScanStatus jobs jobId =
        .ok (.obj [("status", .str "running"),
                   ("message", .str "Scan is still in progress. Please check again later."),
                   ("job_id", .str jobId)])) ∧
    (∀ url tick newId, newId ≠ jobId →
      jobGet (submitScan jobs newId url tick).1 jobId = jobGet jobs jobId) := by
  refine ⟨?_, ?_, ?_⟩
  · intro h
    simp [checkScanStatus, h]
  · intro h hs
    rcases hs with hq | hr
    · simp [checkScanStatus, h, hq]
    · simp [checkScanStatus, h, hr]
  · intro url tick newId hne
    simp [submitScan, jobGet]
    intro heq
    exact absurd heq hne

/-- A queued job used to witness C9. -/
def w9Job : ScanJob :=
  { status := "queued", repo_url := "https://github.com/o/r", submitted_at := 7,
    result := none, error := none }

/-- Witness for C9: an empty table reports not-found, and a queued job reports
the progress snapshot. -/
theorem C9_job_polling_witness :
    checkScanStatus [] "deadbeef" =
      .ok (.obj [("status", .str "error"),
                 ("message", .str "Job ID not found")]) ∧
    checkScanStatus [("a1b2c3d4", w9Job)] "a1b2c3d4" =
      .ok (.obj [("status", .str "running"),
                 ("message", .str "Scan is still in progress. Please check again later."),
                 ("job_id", .str "a1b2c3d4")]) :=
  ⟨(C9_job_polling [] "deadbeef" w9Job).1 rfl,
   (C9_job_polling [("a1b2c3d4", w9Job)] "a1b2c3d4" w9Job).2.1 rfl (Or.inl rfl)⟩

/-! ## C10 — completed jobs can carry error results -/

/-- C10: a background scan job reaches status `failed` only when the tool
invocation itself raises; when the scan tool returns an error-shaped dict
instead of raising (e.g. the CodeQL CLI is missing), the worker marks the job
`completed` and stores the error payload as its result, so a later status
poll returns that error object from a `completed` job — job status
`completed` does not imply the scan succeeded. -/
theorem C10_completed_with_error_result (collab : ScanCollab) (job : ScanJob)
    (repoUrl : String) (language : Option String) (r : Json) (e : String)
    (jobs : JobStore) (jobId : String) :
    (runScanWorker (.ok r) job =
      { job with status := "completed", result := some r }) ∧
    (runScanWorker (.error e) job =
      { job with status := "failed", error := some e }) ∧
    (∀ t : Except String Json, (runScanWorker t job).status = "failed" →
      ∃ msg, t = .error msg) ∧
    (collab.integrationAvailable = true → collab.codeqlAvailable = false →
      ∀ repoId, collab.ingestRepoId repoUrl = .ok repoId →
      runSecurityScanSync collab repoUrl language =
        .obj [("status", .str "error"),
              ("message", .str "CodeQL CLI not found on server"),
              ("repo_id", .str repoId)]) ∧
    (jobGet jobs jobId = some (runScanWorker (.ok r) job) →
      checkScanStatus jobs jobId = .ok r) := by
  refine ⟨rfl, rfl, ?_, ?_, ?_⟩
  · intro t ht
    cases t with
    | ok v => simp [runScanWorker] at ht
    | error msg => exact ⟨msg, rfl⟩
  · intro hint hcq repoId hing
    simp [runSecurityScanSync, hint, hcq, hing]
  · intro h
    simp [checkScanStatus, h, runScanWorker]

/-- A scan-collaborator bundle on a server without the CodeQL CLI. -/
def w10Collab : ScanCollab :=
  { integrationAvailable := true
    analyzeRepositoryLanguage := fun _ => .ok (some "Python")
    ingestRepoId := fun _ => .ok "repo_7"
    codeqlAvailable := false
    codeqlAnalyze := fun _ _ => .error "unreachable" }

/-- The error payload the scan tool returns when the CodeQL CLI is missing. -/
def w10ErrPayload : Json :=
  .obj [("status", .str "error"),
        ("message", .str "CodeQL CLI not found on server"),
        ("repo_id", .str "repo_7")]

/-- A queued job about to be picked up by the C10 witness worker. -/
def w10Job : ScanJob :=
  { status := "queued", repo_url := "https://github.com/o/r", submitted_at := 3,
    result := none, error := none }

/-- Witness for C10: with CodeQL missing, the tool returns the error dict, the
worker stores it on a `completed` job, and the poll reports that error object
from the completed job. -/
theorem C10_completed_with_error_result_witness :
    runSecurityScanSync w10Collab "https://github.com/o/r" none = w10ErrPayload ∧
    (runScanWorker (.ok w10ErrPayload) w10Job).status = "completed" ∧
    checkScanStatus [("j1", runScanWorker (.ok w10ErrPayload) w10Job)] "j1" =
      .ok w10ErrPayload :=
  ⟨(C10_completed_with_error_result w10Collab w10Job "https://github.com/o/r"
      none w10ErrPayload "" [] "j1").2.2.2.1 rfl rfl "repo_7" rfl,
   by rw [(C10_completed_with_error_result w10Collab w10Job "https://github.com/o/r"
      none w10ErrPayload "" [] "j1").1],
   (C10_completed_with_error_result w10Collab w10Job "https://github.com/o/r"
      none w10ErrPayload "" [("j1", runScanWorker (.ok w10ErrPayload) w10Job)]
      "j1").2.2.2.2 rfl⟩

/-! ## C7 / C8 — agent loop termination -/

/-- A turn whose outputs contain a function-call part preceded only by
thought parts (in particular, by no text part). -/
def noTextThenCall (parts : List OutPart) : Prop :=
  ∃ pre nm args cid rest,
    parts = pre ++ OutPart.functionCall nm args cid :: rest ∧
    ∀ p ∈ pre, ∃ s, p = OutPart.thought s

/-- Once a function call has been seen in a turn, the part scan can no longer
return early on a text part: it runs to the end of the outputs with a
recorded last call. -/
theorem scanParts_hasFC (execTool : String → Json → Json) (iter : Nat)
    (parts : List OutPart) :
    ∀ acc lc, ∃ acc' lc',
      scanParts execTool iter parts true acc (some lc) =
        .ended acc' (some lc') ∧ acc.length ≤ acc'.length := by
  induction parts with
  | nil => intro acc lc; exact ⟨acc, lc, rfl, le_refl _⟩
  | cons p rest ih =>
      intro acc lc
      cases p with
      | thought s => exact ih acc lc
      | functionCall nm args cid =>
          obtain ⟨acc', lc', h, hle⟩ := ih
            (acc ++ [{ iteration := iter, function := nm,
                       result := execTool nm args }])
            (nm, cid, execTool nm args)
          exact ⟨acc', lc', h, le_trans (by simp) hle⟩
      | text t => exact ih acc lc

/-- A turn satisfying `noTextThenCall` is scanned to the end, executing at
least one tool call and recording a last call. -/
theorem scanParts_goodTurn (execTool : String → Json → Json) (iter : Nat)
    (parts : List OutPart) (h : noTextThenCall parts) :
    ∃ calls lc, scanParts execTool iter parts false [] none =
      .ended calls (some lc) ∧ 1 ≤ calls.length := by
  obtain ⟨pre, nm, args, cid, rest, hparts, hpre⟩ := h
  subst hparts
  induction pre with
  | nil =>
      obtain ⟨acc', lc', hscan, hle⟩ := scanParts_hasFC execTool iter rest
        [{ iteration := iter, function := nm, result := execTool nm args }]
        (nm, cid, execTool nm args)
      exact ⟨acc', lc', hscan, le_trans (by simp) hle⟩
  | cons p pre' ih =>
      obtain ⟨s, hs⟩ := hpre p (by simp)
      subst hs
      exact ih (fun q hq => hpre q (by simp [hq]))

/-- A `noTextThenCall` turn has nonempty outputs, so the empty-outputs break
is not taken. -/
theorem noTextThenCall_ne_nil {parts : List OutPart} (h : noTextThenCall parts) :
    parts.isEmpty = false := by
  obtain ⟨pre, nm, args, cid, rest, hparts, -⟩ := h
  subst hparts
  cases pre <;> simp

/-- Exhaustion invariant for the agent loop: if every remaining turn responds
with a function call not preceded by text, the loop consumes its whole budget
and ends in the max-iterations outcome, having logged at least one tool call
per turn. -/
theorem agentLoop_exhaustion (oracle : ModelOracle)
    (execTool : String → Json → Json) (goal : String) :
    ∀ (fuel iteration : Nat) (iid : Option String)
      (last : Option (String × String × Json)) (calls : List ToolCallEntry),
    (∀ k iid' inp, iteration < k → k ≤ iteration + fuel →
      ∃ i, oracle k iid' inp = .ok i ∧ noTextThenCall i.outputs) →
    (iteration = 0 ∨ ∃ lc, last = some lc) →
    ∃ calls', agentLoop oracle execTool goal fuel iteration iid last calls =
      .maxIterations (iteration + fuel) calls' ∧
      calls.length + fuel ≤ calls'.length := by
  intro fuel
  induction fuel with
  | zero =>
      intro iteration iid last calls hturn hinv
      exact ⟨calls, rfl, by omega⟩
  | succ fuel ih =>
      intro iteration iid last calls hturn hinv
      have hinput : ∃ inp,
          (if (iteration + 1) == 1 then some (AgentInput.goal goal)
           else match last with
                | some (nm, cid, res) => some (AgentInput.functionResult nm cid res)
                | none => none) = some inp := by
        by_cases hit : iteration = 0
        · subst hit
          exact ⟨AgentInput.goal goal, rfl⟩
        · obtain ⟨lc, hlc⟩ := hinv.resolve_left hit
          subst hlc
          have hne : ((iteration + 1) == 1) = false := by
            simp [Nat.succ_ne_succ]
            omega
          rw [hne]
          exact ⟨AgentInput.functionResult lc.1 lc.2.1 lc.2.2, rfl⟩
      obtain ⟨inp, hinp⟩ := hinput
      obtain ⟨i, horacle, hgood⟩ := hturn (iteration + 1) iid inp (by omega) (by omega)
      obtain ⟨newCalls, lc', hscan, hnew⟩ :=
        scanParts_goodTurn execTool (iteration + 1) i.outputs hgood
      obtain ⟨calls', heq, hlen⟩ := ih (iteration + 1) (some i.id) (some lc')
        (calls ++ newCalls)
        (fun k iid' inp2 hk1 hk2 => hturn k iid' inp2 (by omega) (by omega))
        (Or.inr ⟨lc', rfl⟩)
      refine ⟨calls', ?_, ?_⟩
      · have hcast : iteration + 1 + fuel = iteration + (fuel + 1) := by omega
        rw [hcast] at heq
        simp only [agentLoop, hinp, horacle, noTextThenCall_ne_nil hgood,
          Bool.false_eq_true, if_false, hscan]
        exact heq
      · simp only [List.length_append] at hlen
        omega

/-- C7 (amended): for every iteration budget N ≥ 1, if every model turn up to
N returns outputs containing a function-call part with no text part before
the first function call, the agent run ends in the distinct non-failure
outcome `max_iterations` at exactly iteration N, with at least one recorded
tool call per turn in the history. -/
theorem C7_exhaustion_amended (oracle : ModelOracle)
    (execTool : String → Json → Json) (goal : String) (N : Nat)
    (_hN : 1 ≤ N)
    (h : ∀ k iid inp, 1 ≤ k → k ≤ N →
      ∃ i, oracle k iid inp = .ok i ∧ noTextThenCall i.outputs) :
    ∃ calls, marathonAgent oracle execTool goal N = .maxIterations N calls ∧
      N ≤ calls.length := by
  obtain ⟨calls', heq, hlen⟩ := agentLoop_exhaustion oracle execTool goal N 0
    none none []
    (fun k iid' inp hk1 hk2 => h k iid' inp (by omega) (by omega)) (Or.inl rfl)
  exact ⟨calls', by simpa [marathonAgent] using heq, by simpa using hlen⟩

/-- A turn the model answers with a text part first and a function call after
it in the same output list. -/
def c7Parts : List OutPart :=
  [.text "done", .functionCall "search_github_repos"
    (.obj [("query", .str "x")]) "call_1"]

/-- A model that produces `c7Parts` on every turn. -/
def c7Oracle : ModelOracle := fun _ _ _ => .ok ⟨"i1", c7Parts⟩

/-- A tool runner whose every call reports an error payload (the failing tool
of the exhaustion scenario). -/
def errExecTool : String → Json → Json :=
  fun _ _ => .obj [("error", .str "rate limited")]

/-- Counterexample to C7 as stated: every model turn returns a function-call
part, `max_iterations = 2`, yet the run terminates at iteration 1 with the
completed outcome and no tool call executed — because the text part precedes
the function call in the turn's output list. -/
theorem C7_exhaustion_counterexample :
    c7Parts.any OutPart.isFunctionCall = true ∧
    marathonAgent c7Oracle errExecTool "find repos" 2 =
      .completed "done" 1 [] (some "i1") :=
  ⟨rfl, rfl⟩

/-- A model that always requests the scan tool (thought first, then the
call). -/
def w7Oracle : ModelOracle :=
  fun _ _ _ => .ok ⟨"i7", [.thought "keep trying",
    .functionCall "run_security_scan" (.obj []) "c1"]⟩

/-- Witness for the amended C7 at budget 3 with an always-calling model. -/
theorem C7_exhaustion_amended_witness :
    ∃ calls, marathonAgent w7Oracle errExecTool "scan it" 3 =
      .maxIterations 3 calls ∧ 3 ≤ calls.length :=
  C7_exhaustion_amended w7Oracle errExecTool "scan it" 3 (by omega)
    (fun k iid inp _ _ =>
      ⟨⟨"i7", [.thought "keep trying",
          .functionCall "run_security_scan" (.obj []) "c1"]⟩, rfl,
        [.thought "keep trying"], "run_security_scan", .obj [], "c1", [], rfl,
        fun p hp => by
          rw [List.mem_singleton] at hp
          exact ⟨"keep trying", hp⟩⟩)

/-- A text part preceded only by thought parts triggers the early completed
return of the part scan, with that text. -/
theorem scanParts_text_first (execTool : String → Json → Json) (iter : Nat)
    (pre : List OutPart) (t : String) (post : List OutPart)
    (hpre : ∀ p ∈ pre, ∃ s, p = OutPart.thought s) :
    scanParts execTool iter (pre ++ OutPart.text t :: post) false [] none =
      .earlyText t := by
  induction pre with
  | nil => rfl
  | cons p pre' ih =>
      obtain ⟨s, hs⟩ := hpre p (by simp)
      subst hs
      exact ih (fun q hq => hpre q (by simp [hq]))

/-- C8 (amended): a text part with no function-call part earlier in the same
turn's output list ends the loop as completed with that text — in particular a
first turn of thoughts followed by a text ends the run at iteration 1 with
that text and no tool calls; but a turn whose first function call precedes
any text never triggers the early text return (the order of parts, not their
mere presence, decides termination). -/
theorem C8_text_termination (oracle : ModelOracle)
    (execTool : String → Json → Json) (goal : String) (N : Nat)
    (i : Interaction) (pre post parts : List OutPart) (t : String)
    (iter : Nat) :
    ((∀ p ∈ pre, ∃ s, p = OutPart.thought s) →
      scanParts execTool iter (pre ++ OutPart.text t :: post) false [] none =
        .earlyText t) ∧
    (1 ≤ N → oracle 1 none (.goal goal) = .ok i →
      i.outputs = pre ++ OutPart.text t :: post →
      (∀ p ∈ pre, ∃ s, p = OutPart.thought s) →
      marathonAgent oracle execTool goal N = .completed t 1 [] (some i.id)) ∧
    (noTextThenCall parts →
      ∀ t', scanParts execTool iter parts false [] none ≠ .earlyText t') := by
  refine ⟨?_, ?_, ?_⟩
  · intro hpre
    exact scanParts_text_first execTool iter pre t post hpre
  · intro hN h1 hout hpre
    cases N with
    | zero => omega
    | succ n =>
        have hempty : (i.outputs).isEmpty = false := by
          rw [hout]
          cases pre <;> simp
        simp only [marathonAgent, agentLoop, beq_self_eq_true, if_true, h1,
          hempty, Bool.false_eq_true, if_false]
        rw [hout, scanParts_text_first execTool 1 pre t post hpre]
  · intro hgood t' hcontra
    obtain ⟨calls, lc, hscan, -⟩ := scanParts_goodTurn execTool iter parts hgood
    rw [hscan] at hcontra
    exact absurd hcontra (by simp)

/-- A turn with a text part first and a function call after it. -/
def c8Parts : List OutPart :=
  [.text "answer", .functionCall "search_npm_packages" (.obj []) "c9"]

/-- A model that produces `c8Parts` on every turn. -/
def c8Oracle : ModelOracle := fun _ _ _ => .ok ⟨"i8", c8Parts⟩

/-- Counterexample to C8 as stated: the first turn contains a function-call
part, yet the run terminates as completed at iteration 1 with the text —
the function call after the text is never executed. -/
theorem C8_text_termination_counterexample :
    c8Parts.any OutPart.isFunctionCall = true ∧
    marathonAgent c8Oracle errExecTool "compare packages" 3 =
      .completed "answer" 1 [] (some "i8") :=
  ⟨rfl, rfl⟩

/-- A model that answers the goal directly: a thought and a final text, no
tool call. -/
def w8Oracle : ModelOracle :=
  fun _ _ _ => .ok ⟨"i9", [.thought "easy", .text "hi there"]⟩

/-- Witness for the amended C8: a directly answerable goal ends at iteration
1 as completed with the text, and a call-first turn never early-returns. -/
theorem C8_text_termination_witness :
    marathonAgent w8Oracle errExecTool "say hi" 5 =
      .completed "hi there" 1 [] (some "i9") ∧
    scanParts errExecTool 1
        [OutPart.functionCall "search_github_repos" (.obj []) "c2",
         OutPart.text "later text"] false [] none ≠ .earlyText "later text" :=
  ⟨(C8_text_termination w8Oracle errExecTool "say hi" 5
      ⟨"i9", [.thought "easy", .text "hi there"]⟩ [.thought "easy"] [] [] "hi there" 1).2.1
      (by omega) rfl rfl
      (fun p hp => by
        rw [List.mem_singleton] at hp
        exact ⟨"easy", hp⟩),
   (C8_text_termination w8Oracle errExecTool "say hi" 5
      ⟨"i9", [.thought "easy", .text "hi there"]⟩ [.thought "easy"] []
      [OutPart.functionCall "search_github_repos" (.obj []) "c2",
       OutPart.text "later text"] "hi there" 1).2.2
      ⟨[], "search_github_repos", .obj [], "c2", [OutPart.text "later text"],
        rfl, fun p hp => absurd hp (List.not_mem_nil p)⟩ "later text"⟩

/-! ## C2 — what bytes the signature actually covers -/

/-- Adjacent object entries are in non-decreasing key order. -/
def keysOrdered : List (String × Json) → Bool
  | [] => true
  | [_] => true
  | p :: q :: rest => keyStrLe p.1 q.1 && keysOrdered (q :: rest)

mutual

/-- Every object in the value has its keys in non-decreasing order. -/
def sortedKeys : Json → Bool
  | .null => true
  | .bool _ => true
  | .num _ => true
  | .str _ => true
  | .arr xs => sortedKeysList xs
  | .obj kvs => keysOrdered kvs && sortedKeysPairs kvs

/-- `sortedKeys` over array elements. -/
def sortedKeysList : List Json → Bool
  | [] => true
  | x :: xs => sortedKeys x && sortedKeysList xs

/-- `sortedKeys` over object values. -/
def sortedKeysPairs : List (String × Json) → Bool
  | [] => true
  | (_, v) :: kvs => sortedKeys v && sortedKeysPairs kvs

end

/-- The key order is total: if `a ≤ b` fails then `b ≤ a` holds. -/
theorem keyListLe_total : ∀ as bs : List Char,
    keyListLe as bs = false → keyListLe bs as = true := by
  intro as
  induction as with
  | nil => intro bs h; simp [keyListLe] at h
  | cons a as ih =>
      intro bs h
      cases bs with
      | nil => rfl
      | cons b bs' =>
          unfold keyListLe at h ⊢
          by_cases h1 : a.toNat < b.toNat
          · simp [h1] at h
          · by_cases h2 : b.toNat < a.toNat
            · simp [h1, h2] at h ⊢
            · simp only [h1, h2, if_false] at h ⊢
              exact ih bs' h

/-- Totality of the key order on strings. -/
theorem keyStrLe_total (a b : String) (h : keyStrLe a b = false) :
    keyStrLe b a = true :=
  keyListLe_total a.data b.data h

/-- The head entry's key is a lower bound for the next entry (vacuously true
for the empty tail). -/
def headLe (x : String × Json) : List (String × Json) → Bool
  | [] => true
  | y :: _ => keyStrLe x.1 y.1

/-- Unfold the adjacent-order check one step. -/
theorem keysOrdered_cons (x : String × Json) (l : List (String × Json)) :
    keysOrdered (x :: l) = true ↔
      (headLe x l = true ∧ keysOrdered l = true) := by
  cases l with
  | nil => simp [keysOrdered, headLe]
  | cons y ys => simp [keysOrdered, headLe]

/-- Insertion below an upper bound keeps the bound at the head. -/
theorem headLe_insertPair (q p : String × Json) (l : List (String × Json))
    (hqp : keyStrLe q.1 p.1 = true) (hl : headLe q l = true) :
    headLe q (insertPair p l) = true := by
  cases l with
  | nil => exact hqp
  | cons r rs =>
      by_cases hpr : keyStrLe p.1 r.1 = true
      · simp only [insertPair, hpr, if_true, headLe]
        exact hqp
      · simp only [insertPair, hpr, Bool.false_eq_true, if_false, headLe]
        exact hl

/-- Inserting an entry into a key-ordered list keeps it key-ordered. -/
theorem keysOrdered_insertPair (p : String × Json) :
    ∀ l, keysOrdered l = true → keysOrdered (insertPair p l) = true := by
  intro l
  induction l with
  | nil => intro _; rfl
  | cons q qs ih =>
      intro h
      rw [keysOrdered_cons] at h
      by_cases hpq : keyStrLe p.1 q.1 = true
      · simp only [insertPair, hpq, if_true]
        rw [keysOrdered_cons, keysOrdered_cons]
        exact ⟨hpq, h⟩
      · have hqp : keyStrLe q.1 p.1 = true :=
          keyStrLe_total _ _ (Bool.eq_false_iff.mpr hpq)
        simp only [insertPair, hpq, Bool.false_eq_true, if_false]
        rw [keysOrdered_cons]
        exact ⟨headLe_insertPair q p qs hqp h.1, ih h.2⟩

/-- The insertion sort produces a key-ordered entry list. -/
theorem keysOrdered_sortPairs : ∀ l, keysOrdered (sortPairs l) = true
  | [] => rfl
  | p :: ps => keysOrdered_insertPair p (sortPairs ps) (keysOrdered_sortPairs ps)

/-- Insertion adds no entries beyond the inserted one. -/
theorem mem_insertPair {x p : String × Json} :
    ∀ {l}, x ∈ insertPair p l → x = p ∨ x ∈ l := by
  intro l
  induction l with
  | nil => simp [insertPair]
  | cons q qs ih =>
      simp only [insertPair]
      split_ifs
      · intro h
        simpa using h
      · intro h
        rcases List.mem_cons.mp h with hq | hrest
        · exact Or.inr (by simp [hq])
        · rcases ih hrest with hp | hqs
          · exact Or.inl hp
          · exact Or.inr (by simp [hqs])

/-- Sorting adds no entries. -/
theorem mem_sortPairs {x : String × Json} :
    ∀ {l}, x ∈ sortPairs l → x ∈ l := by
  intro l
  induction l with
  | nil => simp [sortPairs]
  | cons q qs ih =>
      intro h
      rcases mem_insertPair h with hq | hqs
      · simp [hq]
      · exact List.mem_cons_of_mem _ (ih hqs)

/-- `sortedKeysPairs` is the conjunction of `sortedKeys` over the values. -/
theorem sortedKeysPairs_iff : ∀ l : List (String × Json),
    (sortedKeysPairs l = true ↔ ∀ p ∈ l, sortedKeys p.2 = true)
  | [] => by simp [sortedKeysPairs]
  | (k, v) :: kvs => by
      simp [sortedKeysPairs, sortedKeysPairs_iff kvs]

mutual

/-- `sort_keys=True` produces key-sorted objects at every nesting level. -/
theorem sortedKeys_sortJson : ∀ j : Json, sortedKeys (sortJson j) = true
  | .null => rfl
  | .bool _ => rfl
  | .num _ => rfl
  | .str _ => rfl
  | .arr xs => by
      simp only [sortJson, sortedKeys]
      exact sortedKeysList_sortJsonList xs
  | .obj kvs => by
      simp only [sortJson, sortedKeys]
      rw [Bool.and_eq_true]
      constructor
      · exact keysOrdered_sortPairs _
      · rw [sortedKeysPairs_iff]
        intro p hp
        have hmem : p ∈ sortJsonPairs kvs := mem_sortPairs hp
        exact (sortedKeysPairs_iff _).mp (sortedKeysPairs_sortJsonPairs kvs) p hmem

/-- `sortedKeys_sortJson` over array elements. -/
theorem sortedKeysList_sortJsonList : ∀ xs : List Json,
    sortedKeysList (sortJsonList xs) = true
  | [] => rfl
  | x :: xs => by
      simp only [sortJsonList, sortedKeysList]
      rw [Bool.and_eq_true]
      exact ⟨sortedKeys_sortJson x, sortedKeysList_sortJsonList xs⟩

/-- `sortedKeys_sortJson` over object values. -/
theorem sortedKeysPairs_sortJsonPairs : ∀ kvs : List (String × Json),
    sortedKeysPairs (sortJsonPairs kvs) = true
  | [] => rfl
  | (k, v) :: kvs => by
      simp only [sortJsonPairs, sortedKeysPairs]
      rw [Bool.and_eq_true]
      exact ⟨sortedKeys_sortJson v, sortedKeysPairs_sortJsonPairs kvs⟩

end

/-- A small concrete plan (standard analysis, no instructions). -/
def c2Plan : Plan :=
  createAnalysisPlan "plan_c2" "2024-01-01T00:00:00Z" ⟨"r1", "standard", none⟩

set_option maxRecDepth 40000 in
/-- Counterexample to C2 as stated: for a concrete plan, the byte string the
signature covers (`json.dumps(plan, sort_keys=True)`) is not the persisted
byte representation (`json.dump(plan, f, indent=2)`), and it contains
incidental whitespace — a space right after the `"actions":` key separator,
outside any string literal. -/
theorem C2_signature_bytes_counterexample :
    persistedBytes c2Plan ≠ dumpsSorted (planToJson c2Plan) ∧
    ("\x7b\"actions\": ").data.isPrefixOf (dumpsSorted (planToJson c2Plan)).data
      = true := by
  constructor
  · exact ne_of_beq_false rfl
  · rfl

/-- C2 (amended): signature verification covers
`json.dumps(plan, sort_keys=True) ++ ":" ++ approver` — a deterministic
serialization with keys sorted at every nesting level (third conjunct), and
the same bytes the exposed `generate_signature` covers (second conjunct) —
but with Python's default separators, which place a space after every `:`
and `,`, and not the persisted `indent=2` insertion-order bytes (see the
counterexample). -/
theorem C2_signature_bytes_amended (mac : String → String → String)
    (secret : String) (plan : Plan) (approver sig : String) :
    (verifySignature mac secret plan approver sig = true ↔
      sig = mac secret (dumpsSorted (planToJson plan) ++ ":" ++ approver)) ∧
    (generateSignature mac secret plan approver =
      mac secret (dumpsSorted (planToJson plan) ++ ":" ++ approver)) ∧
    sortedKeys (sortJson (planToJson plan)) = true := by
  refine ⟨?_, rfl, sortedKeys_sortJson _⟩
  simp [verifySignature]

/-! ## C1 — re-invoking execution on a completed plan -/

/-- An injective keyed MAC standing in for HMAC-SHA256: distinct messages
under the same key have distinct tags, which is the property of HMAC the
signature scheme relies on (collision resistance). -/
def macTag : String → String → String := fun secret msg => secret ++ "|" ++ msg

/-- The C1 request: a standard analysis with no instructions. -/
def c1Req : OrchestratorRequest := ⟨"r1", "standard", none⟩

/-- The plan as created and persisted, pending approval. -/
def c1Plan : Plan := createAnalysisPlan "plan_ab12" "2024-01-01T00:00:00Z" c1Req

/-- The approval signature the approver computes over the pending plan — the
signature that is valid for the first execution. -/
def c1Sig : String := generateSignature macTag "k0" c1Plan "alice"

/-- The first `execute_plan` call on the freshly persisted plan. -/
def c1FirstRun : Except OrchError (Plan × PlanStore) :=
  executePlan macTag "k0" demoCollab "2024-01-02T00:00:00Z"
    (persistPlan [] c1Plan) "plan_ab12" "alice" c1Sig

/-- The second `execute_plan` call, against the store left by the first call,
with the same signature that was valid for the first execution. -/
def c1SecondRun : Except OrchError (Plan × PlanStore) :=
  match c1FirstRun with
  | .ok ps => executePlan macTag "k0" demoCollab "2024-01-03T00:00:00Z"
      ps.2 "plan_ab12" "alice" c1Sig
  | .error e => .error e

set_option maxRecDepth 40000 in
/-- C1 is a code bug, witnessed here by evaluating `execute_plan` at the
failing input: the first call with the approver's signature succeeds and
persists the plan as completed (so the signature was valid for the first
execution), but the second call with that same signature raises
PermissionDenied instead of returning the stored plan unchanged — because
`execute_plan` recomputes the signature over the now-mutated plan bytes
before it ever reaches the completed-status short-circuit.  This contradicts
the specification's idempotence property and the repository's own test
(`tests/unit/test_orchestrator_service.py::test_execute_plan_idempotent`). -/
theorem C1_idempotence_code_bug :
    (match c1FirstRun with
     | .ok ps => ps.1.status = "completed" ∧
         ps.1.executed_at = some "2024-01-02T00:00:00Z"
     | .error _ => False) ∧
    c1SecondRun = .error (.permissionDenied "Invalid approval signature") := by
  exact ⟨⟨rfl, rfl⟩, rfl⟩

/-! ## C4 — critical failure short-circuit -/

/-- Collaborators whose model-plan call always raises, driving the C4
scenario (every other collaborator call succeeds). -/
def failingThinkCollab : Collaborators :=
  { getRepoContent := fun _ => .ok "def main: pass"
    generatePlan := fun _ _ => .error "model unavailable"
    performAnalysis := fun _ _ _ => .ok (.str "findings") }

/-- The deep request of the C4 scenario. -/
def c4Req : OrchestratorRequest := ⟨"r7", "deep", some "find bugs"⟩

/-- The pending plan compiled from the C4 request. -/
def c4Plan : Plan := createAnalysisPlan "plan_c4" "2024-01-01T00:00:00Z" c4Req

/-- The plan exactly as `execute_plan` persists it after the aborted run:
completed, with the partial results of the single pass. -/
def c4CompletedPlan : Plan :=
  { c4Plan with
    status := "completed"
    executed_at := some "2024-01-02T00:00:00Z"
    results := some (execResultsToJson
      (executeActions failingThinkCollab (generateActions c4Req) c4Req).1)
    actions := (executeActions failingThinkCollab (generateActions c4Req) c4Req).2 }

set_option maxRecDepth 40000 in
/-- C4 is a code bug, witnessed by evaluating the embedded code on the
claim's scenario `[ingest, index, think(fails), analyze]`.  The
critical-failure short-circuit itself holds: `gemini_analyze` never executes
(only 3 outcomes are recorded and its status stays `pending`), and the plan
is still persisted as `completed` with the partial results of the one pass.
But the aggregate completed-count is 1, not the claimed 2, and the statuses
are `[failed, completed, failed, pending]`: the `ingest_repository` handler
calls `IngestService.get_repo_path`, a method that does not exist (tests
provide it only through mocks), so every ingest action fails with
AttributeError, while the handler's own comments ("In Phase 1 we just return
success") and the specification say ingest completes. -/
theorem C4_critical_failure_code_bug :
    (executeActions failingThinkCollab (generateActions c4Req) c4Req).1.total_actions
      = 4 ∧
    (executeActions failingThinkCollab (generateActions c4Req) c4Req).1.completed_actions
      = 1 ∧
    (executeActions failingThinkCollab (generateActions c4Req) c4Req).2.map
        PlanAction.status = ["failed", "completed", "failed", "pending"] ∧
    (executeActions failingThinkCollab (generateActions c4Req) c4Req).1.action_results.length
      = 3 ∧
    (executeActions failingThinkCollab (generateActions c4Req) c4Req).1.action_results.head?
      = some (errEntry
          { step := 1, action := "ingest_repository",
            description := "Clone and process repository",
            params := [("repo_id", .str "r7")], status := "pending" }
          "'IngestService' object has no attribute 'get_repo_path'") ∧
    executePlan macTag "k0" failingThinkCollab "2024-01-02T00:00:00Z"
        (persistPlan [] c4Plan) "plan_c4" "alice"
        (generateSignature macTag "k0" c4Plan "alice") =
      .ok (c4CompletedPlan, persistPlan (persistPlan [] c4Plan) c4CompletedPlan) ∧
    c4CompletedPlan.status = "completed" := by
  exact ⟨rfl, rfl, rfl, rfl, rfl, rfl, rfl⟩
